import Mathlib

/-!
Verification of the Greenlight backend's user data-access layer, request
context identity, database bootstrap, and user validation, shallowly
embedded from the Go source (`internal/data/users.go`, `internal/data/models.go`,
`cmd/api/main.go`, and the context helper file).

Conventions of the embedding:
* Go strings are Lean `String`; Go `len` on a string (a byte count) is
  `goLen` (`String.utf8ByteSize`).
* The Postgres store is a `Store` (list of user rows plus an id counter and
  a clock); each SQL statement issued by the source is embedded as one pure
  function over `Store` giving exactly that statement's semantics.
* A store call can also fail for infrastructure reasons (timeout,
  connection loss, any other server error); this environment-chosen outcome
  is the `infra : Option DBError` argument: `some e` means the call
  returned error `e` instead of executing, `none` means the statement ran.
* Go error values returned by the data layer are the inductive `UserErr`;
  `UserErr.raw e` is the untranslated store error `e` passed through by the
  `default:` branch of the source's error switches.
* Argon2id hashing (`argon2id.CreateHash`) is an abstract parameter
  `hash : String → String` (its RNG-failure branch is not modelled; no
  claim concerns it).
* Pointer mutation of the `*User` argument is embedded by returning the
  updated `User` value alongside the result.
-/

/-- The `data.User` struct of `internal/data/users.go`, with its JSON tags
recorded separately in `userJSON`. `CreatedAt` is an abstract timestamp. -/
structure User where
  ID : Int
  CreatedAt : Nat
  Name : String
  Email : String
  Password : String
  Activated : Bool
  Version : Int
deriving Repr, DecidableEq

/-- A JSON primitive value as produced by Go `encoding/json` for the field
types of `User`; a `time.Time` renders as an opaque timestamp. -/
inductive JValue where
  | jint (n : Int)
  | jstr (s : String)
  | jbool (b : Bool)
  | jtime (t : Nat)
deriving Repr, DecidableEq

/-- The outward JSON object for a `User`, read off the struct tags:
`id`, `created_at`, `name`, `email`, `activated` are emitted; `Password`
and `Version` carry the tag `json:"-"` and are omitted by `encoding/json`. -/
def userJSON (u : User) : List (String × JValue) :=
  [("id", JValue.jint u.ID),
   ("created_at", JValue.jtime u.CreatedAt),
   ("name", JValue.jstr u.Name),
   ("email", JValue.jstr u.Email),
   ("activated", JValue.jbool u.Activated)]

/-- A value stored in a request context: either the `*data.User` stored
under the user key, or some unrelated value. -/
inductive CtxVal where
  | user (u : User)
  | other (tag : String)
deriving Repr, DecidableEq

/-- The `userContextKey = contextKey("user")` constant. -/
def userContextKey : String := "user"

/-- A request carrying its context's key-value chain; `context.WithValue`
prepends, and `Context.Value` finds the most recently added binding. -/
structure Request where
  ctxVals : List (String × CtxVal)
deriving Repr, DecidableEq

/-- `Context.Value` lookup on a request's context chain. -/
def ctxValue (r : Request) (k : String) : Option CtxVal :=
  (r.ctxVals.find? (fun p => p.1 == k)).map Prod.snd

/-- `app.contextSetUser`: returns a copy of the request whose context has
the user stored under `userContextKey`. -/
def contextSetUser (r : Request) (u : User) : Request :=
  ⟨(userContextKey, CtxVal.user u) :: r.ctxVals⟩

/-- `app.contextGetUser`: reads the context value at `userContextKey` and
type-asserts it to `*data.User`; a failed assertion panics, which the
embedding renders as `none`. -/
def contextGetUser (r : Request) : Option User :=
  match ctxValue r userContextKey with
  | some (CtxVal.user u) => some u
  | _ => none

/-- Decidable equality for `Except` results, used to evaluate the model on
concrete inputs. -/
instance exceptDecEq {ε α : Type} [DecidableEq ε] [DecidableEq α] :
    DecidableEq (Except ε α)
  | Except.ok a, Except.ok b =>
    if h : a = b then Decidable.isTrue (by rw [h]) else Decidable.isFalse (by simp [h])
  | Except.ok _, Except.error _ => Decidable.isFalse (by simp)
  | Except.error _, Except.ok _ => Decidable.isFalse (by simp)
  | Except.error a, Except.error b =>
    if h : a = b then Decidable.isTrue (by rw [h]) else Decidable.isFalse (by simp [h])

/-- A row of the `users` table:
`id, created_at, name, email, password_hash, activated, version`. -/
structure Row where
  id : Int
  createdAt : Nat
  name : String
  email : String
  passwordHash : String
  activated : Bool
  version : Int
deriving Repr, DecidableEq

/-- The users table with the store's id sequence and clock. -/
structure Store where
  rows : List Row
  nextId : Int
  now : Nat
deriving Repr, DecidableEq

/-- An error produced by the persistence layer: `noRows` is
`pgx.ErrNoRows`; `uniqueEmailViolation` is the `users_email_key`
unique-constraint error; `timeout` is a context-deadline failure; `other`
is any further server error, carrying its message. -/
inductive DBError where
  | noRows
  | uniqueEmailViolation
  | timeout
  | other (msg : String)
deriving Repr, DecidableEq

/-- The exact message the source compares against (`err.Error()` of a
`users_email_key` violation). -/
def dupEmailMsg : String :=
  "ERROR: duplicate key value violates unique constraint \"users_email_key\" (SQLSTATE 23505)"

/-- The `err.Error()` string of a store error. -/
def DBError.errString : DBError → String
  | DBError.noRows => "no rows in result set"
  | DBError.uniqueEmailViolation => dupEmailMsg
  | DBError.timeout => "timeout: context deadline exceeded"
  | DBError.other msg => msg

/-- An error value returned by a `UserModel` method to its caller:
the three named sentinel errors of `internal/data`, or a raw store error
passed through untranslated. -/
inductive UserErr where
  | ErrDuplicateEmail
  | ErrEditConflict
  | ErrRecordNotFound
  | raw (e : DBError)
deriving Repr, DecidableEq

/-- Semantics of
`INSERT INTO users (name, email, password_hash, activated) VALUES ($1,$2,$3,$4) RETURNING id, created_at, version`:
the unique constraint on `email` rejects a colliding row and leaves the
store unchanged; otherwise a fresh row (defaults: next sequence id, the
current clock, version 1) is appended and its returned columns are given
back. `infra` is an infrastructure failure of the call, if any. -/
def dbInsertUser (infra : Option DBError) (st : Store)
    (name email hashed : String) (activated : Bool) :
    Except DBError (Int × Nat × Int × Store) :=
  match infra with
  | some e => Except.error e
  | none =>
    if st.rows.any (fun r => r.email == email) then
      Except.error DBError.uniqueEmailViolation
    else
      let row : Row := ⟨st.nextId, st.now, name, email, hashed, activated, 1⟩
      Except.ok (row.id, row.createdAt, row.version,
        { st with rows := st.rows ++ [row], nextId := st.nextId + 1 })

/-- Semantics of
`SELECT id, created_at, name, email, password_hash, activated, version FROM users WHERE email = $1`
read through `QueryRow.Scan`: the first matching row, or `pgx.ErrNoRows`. -/
def dbGetByEmail (infra : Option DBError) (st : Store) (email : String) :
    Except DBError Row :=
  match infra with
  | some e => Except.error e
  | none =>
    match st.rows.find? (fun r => r.email == email) with
    | none => Except.error DBError.noRows
    | some r => Except.ok r

/-- Semantics of
`UPDATE users SET name=$1, email=$2, password_hash=$3, activated=$4, version = version + 1 WHERE id = $5 AND version = $6 RETURNING version`:
one conditional statement — the version check and the write are a single
store step. If no row matches both `id` and `version`, nothing is written
and `Scan` sees `pgx.ErrNoRows`; if the new email collides with a
different row the unique constraint rejects and nothing is written;
otherwise the matching row is rewritten with `version` incremented and the
new version is returned. -/
def dbUpdateUser (infra : Option DBError) (st : Store)
    (name email hashed : String) (activated : Bool) (id ver : Int) :
    Except DBError (Int × Store) :=
  match infra with
  | some e => Except.error e
  | none =>
    match st.rows.find? (fun r => r.id == id && r.version == ver) with
    | none => Except.error DBError.noRows
    | some r =>
      if st.rows.any (fun r2 => r2.id != id && r2.email == email) then
        Except.error DBError.uniqueEmailViolation
      else
        let newRow : Row :=
          { r with name := name, email := email, passwordHash := hashed,
                   activated := activated, version := r.version + 1 }
        let upd := fun r2 => if r2.id == id && r2.version == ver then newRow else r2
        Except.ok (newRow.version, { st with rows := st.rows.map upd })

/-- `UserModel.Insert`: hashes the password, runs the INSERT, translates a
`users_email_key` violation (recognised by its exact message) to
`ErrDuplicateEmail`, passes any other error through raw, and on success
scans `id, created_at, version` into the user. -/
def UserModelInsert (hash : String → String) (infra : Option DBError)
    (st : Store) (u : User) : Except UserErr Unit × User × Store :=
  let hashedPassword := hash u.Password
  match dbInsertUser infra st u.Name u.Email hashedPassword u.Activated with
  | Except.error e =>
    if e.errString == dupEmailMsg then
      (Except.error UserErr.ErrDuplicateEmail, u, st)
    else
      (Except.error (UserErr.raw e), u, st)
  | Except.ok (id, createdAt, ver, st') =>
    (Except.ok (), { u with ID := id, CreatedAt := createdAt, Version := ver }, st')

/-- The user value scanned out of a `users` row by `GetByEmail` (the
password hash column fills the `Password` field). -/
def rowToUser (r : Row) : User :=
  ⟨r.id, r.createdAt, r.name, r.email, r.passwordHash, r.activated, r.version⟩

/-- `UserModel.GetByEmail`: runs the SELECT, translates `pgx.ErrNoRows` to
`ErrRecordNotFound`, passes any other error through raw, and otherwise
returns the scanned user. -/
def UserModelGetByEmail (infra : Option DBError) (st : Store)
    (email : String) : Except UserErr User :=
  match dbGetByEmail infra st email with
  | Except.error e =>
    if e == DBError.noRows then
      Except.error UserErr.ErrRecordNotFound
    else
      Except.error (UserErr.raw e)
  | Except.ok r => Except.ok (rowToUser r)

/-- `UserModel.Update`: hashes the password, runs the conditional UPDATE,
translates a `users_email_key` violation to `ErrDuplicateEmail` and
`pgx.ErrNoRows` to `ErrEditConflict`, passes any other error through raw,
and on success scans the returned version into the user. -/
def UserModelUpdate (hash : String → String) (infra : Option DBError)
    (st : Store) (u : User) : Except UserErr Unit × User × Store :=
  let hashedPassword := hash u.Password
  match dbUpdateUser infra st u.Name u.Email hashedPassword u.Activated u.ID u.Version with
  | Except.error e =>
    if e.errString == dupEmailMsg then
      (Except.error UserErr.ErrDuplicateEmail, u, st)
    else if e == DBError.noRows then
      (Except.error UserErr.ErrEditConflict, u, st)
    else
      (Except.error (UserErr.raw e), u, st)
  | Except.ok (ver, st') =>
    (Except.ok (), { u with Version := ver }, st')

/-- Membership of an error in the taxonomy named by the spec for the user
data layer: the three sentinel errors, or the store-unavailable outcome
(a passed-through deadline failure). -/
def namedTaxonomy : UserErr → Bool
  | UserErr.ErrDuplicateEmail => true
  | UserErr.ErrEditConflict => true
  | UserErr.ErrRecordNotFound => true
  | UserErr.raw DBError.timeout => true
  | UserErr.raw _ => false

/-- C7: the outward JSON serialization of a `User` never contains the
`Password` or `Version` field: the emitted keys are exactly
`id, created_at, name, email, activated`, and two users differing only in
`Password` and `Version` serialize identically. -/
theorem userJSON_omits_password_version (u : User) (p : String) (v : Int) :
    userJSON { u with Password := p, Version := v } = userJSON u ∧
    (userJSON u).map Prod.fst =
      ["id", "created_at", "name", "email", "activated"] := by
  constructor <;> rfl

/-- C9: `contextGetUser` is a left inverse of `contextSetUser` — getting
after setting returns exactly the user that was set — and on a request
whose context has no binding for the user key, `contextGetUser` panics
(embedded as `none`) rather than producing a user. -/
theorem contextGetUser_contextSetUser (r : Request) (u : User) :
    contextGetUser (contextSetUser r u) = some u ∧
    (ctxValue r userContextKey = none → contextGetUser r = none) := by
  constructor
  · simp [contextGetUser, contextSetUser, ctxValue, userContextKey]
  · intro h
    simp [contextGetUser, h]

/-- Witness for C9 at a concrete request and user. -/
theorem contextGetUser_contextSetUser_witness :
    contextGetUser (contextSetUser ⟨[("trace", CtxVal.other "t")]⟩
        ⟨1, 0, "Ann", "a@b.c", "pw", true, 1⟩) =
      some ⟨1, 0, "Ann", "a@b.c", "pw", true, 1⟩ ∧
    contextGetUser ⟨[("trace", CtxVal.other "t")]⟩ = none := by
  refine ⟨(contextGetUser_contextSetUser ⟨[("trace", CtxVal.other "t")]⟩
    ⟨1, 0, "Ann", "a@b.c", "pw", true, 1⟩).1, ?_⟩
  exact (contextGetUser_contextSetUser ⟨[("trace", CtxVal.other "t")]⟩
    ⟨1, 0, "Ann", "a@b.c", "pw", true, 1⟩).2 (by decide)

/-- A concrete two-user store used by the witnesses. -/
def stA : Store :=
  ⟨[⟨1, 5, "Alice", "alice@x.y", "H1", true, 2⟩,
    ⟨2, 6, "Bob", "bob@x.y", "H2", false, 1⟩], 3, 7⟩

/-- C1: when the submitted `(id, version)` pair matches no stored row, the
single conditional UPDATE writes nothing — `Update` returns
`ErrEditConflict` and the store is returned exactly as it was. The version
check and the write are the one store step `dbUpdateUser`, never a read
followed by a separate write. -/
theorem update_version_mismatch_edit_conflict
    (hash : String → String) (st : Store) (u : User)
    (h : ∀ r ∈ st.rows, ¬(r.id = u.ID ∧ r.version = u.Version)) :
    UserModelUpdate hash none st u = (Except.error UserErr.ErrEditConflict, u, st) := by
  have hf : st.rows.find? (fun r => r.id == u.ID && r.version == u.Version) = none := by
    rw [List.find?_eq_none]
    intro r hr
    have := h r hr
    simp only [Bool.and_eq_true, beq_iff_eq, not_and] at this ⊢
    intro h1 h2
    exact this h1 h2
  simp [UserModelUpdate, dbUpdateUser, hf, DBError.errString, dupEmailMsg]

/-- Witness for C1: updating with a stale version against the concrete
store is rejected with `ErrEditConflict` and the store is unchanged. -/
theorem update_version_mismatch_edit_conflict_witness :
    UserModelUpdate (fun s => s) none stA ⟨1, 5, "Alice", "alice@x.y", "pw", true, 1⟩ =
      (Except.error UserErr.ErrEditConflict,
       ⟨1, 5, "Alice", "alice@x.y", "pw", true, 1⟩, stA) :=
  update_version_mismatch_edit_conflict (fun s => s) stA
    ⟨1, 5, "Alice", "alice@x.y", "pw", true, 1⟩ (by decide)

/-- C3: whenever `Update` succeeds, the stored row it matched (same id,
same submitted version) is replaced by a row whose version is exactly one
larger, and the returned user's `Version` field is that new version. -/
theorem update_success_increments_version
    (hash : String → String) (infra : Option DBError) (st : Store) (u : User)
    (u' : User) (st' : Store)
    (h : UserModelUpdate hash infra st u = (Except.ok (), u', st')) :
    u'.Version = u.Version + 1 ∧
    (∃ r ∈ st.rows, r.id = u.ID ∧ r.version = u.Version) ∧
    (∃ r' ∈ st'.rows, r'.id = u.ID ∧ r'.version = u.Version + 1) := by
  unfold UserModelUpdate at h
  dsimp only at h
  cases hdb : dbUpdateUser infra st u.Name u.Email (hash u.Password) u.Activated u.ID u.Version with
  | error e =>
    rw [hdb] at h
    dsimp only at h
    split_ifs at h <;> simp at h
  | ok p =>
    rw [hdb] at h
    obtain ⟨ver, st''⟩ := p
    simp only [Prod.mk.injEq] at h
    obtain ⟨-, h2, h3⟩ := h
    unfold dbUpdateUser at hdb
    cases infra with
    | some e => simp at hdb
    | none =>
      cases hfind : st.rows.find? (fun r => r.id == u.ID && r.version == u.Version) with
      | none => rw [hfind] at hdb; simp at hdb
      | some r =>
        rw [hfind] at hdb
        have hp := List.find?_some hfind
        have hmem := List.mem_of_find?_eq_some hfind
        simp only [Bool.and_eq_true, beq_iff_eq] at hp
        cases hany : st.rows.any (fun r2 => r2.id != u.ID && r2.email == u.Email) with
        | true => rw [hany] at hdb; simp at hdb
        | false =>
          rw [hany] at hdb
          simp only [Bool.false_eq_true, if_false, Except.ok.injEq, Prod.mk.injEq] at hdb
          obtain ⟨hver, hst⟩ := hdb
          refine ⟨?_, ⟨r, hmem, hp.1, hp.2⟩, ?_⟩
          · rw [← h2]; simp [← hver, hp.2]
          · refine ⟨{ r with name := u.Name, email := u.Email, passwordHash := hash u.Password, activated := u.Activated, version := r.version + 1 }, ?_, hp.1, by simp [hp.2]⟩
            rw [← h3, ← hst]
            simp only [List.mem_map]
            exact ⟨r, hmem, by simp [hp.1, hp.2]⟩

/-- Witness for C3: a successful update of Alice against the concrete
store moves the stored version from 2 to 3 and reports version 3 back. -/
theorem update_success_increments_version_witness :
    (⟨1, 5, "Al", "al@x.y", "pw", true, 3⟩ : User).Version = 2 + 1 ∧
    (∃ r ∈ stA.rows, r.id = 1 ∧ r.version = 2) ∧
    (∃ r' ∈ ({ stA with rows := [⟨1, 5, "Al", "al@x.y", "pw", true, 3⟩,
        ⟨2, 6, "Bob", "bob@x.y", "H2", false, 1⟩] } : Store).rows,
      r'.id = 1 ∧ r'.version = 2 + 1) :=
  update_success_increments_version (fun s => s) none stA
    ⟨1, 5, "Al", "al@x.y", "pw", true, 2⟩
    ⟨1, 5, "Al", "al@x.y", "pw", true, 3⟩
    { stA with rows := [⟨1, 5, "Al", "al@x.y", "pw", true, 3⟩,
        ⟨2, 6, "Bob", "bob@x.y", "H2", false, 1⟩] }
    (by decide)

/-- C4: an insert whose email already exists in the store, and an update
that matched its row but would set the email to a different user's email,
both hit the `users_email_key` constraint: the call returns
`ErrDuplicateEmail` and the store comes back exactly as it was — no row is
created or modified. -/
theorem duplicate_email_rejected
    (hash : String → String) (st : Store) (u : User)
    (hins : ∃ r ∈ st.rows, r.email = u.Email)
    (hmatch : ∃ r ∈ st.rows, r.id = u.ID ∧ r.version = u.Version)
    (hupd : ∃ r2 ∈ st.rows, r2.id ≠ u.ID ∧ r2.email = u.Email) :
    UserModelInsert hash none st u = (Except.error UserErr.ErrDuplicateEmail, u, st) ∧
    UserModelUpdate hash none st u = (Except.error UserErr.ErrDuplicateEmail, u, st) := by
  have hany1 : st.rows.any (fun r => r.email == u.Email) = true := by
    rw [List.any_eq_true]
    obtain ⟨r, hr, he⟩ := hins
    exact ⟨r, hr, by simp [he]⟩
  have hany2 : st.rows.any (fun r2 => r2.id != u.ID && r2.email == u.Email) = true := by
    rw [List.any_eq_true]
    obtain ⟨r2, hr2, hid, he⟩ := hupd
    exact ⟨r2, hr2, by simp [hid, he]⟩
  constructor
  · simp [UserModelInsert, dbInsertUser, hany1, DBError.errString]
  · obtain ⟨rm, hrm, hid, hver⟩ := hmatch
    have hfind : (st.rows.find? (fun r => r.id == u.ID && r.version == u.Version)).isSome := by
      rw [List.find?_isSome]
      exact ⟨rm, hrm, by simp [hid, hver]⟩
    obtain ⟨r0, hf0⟩ := Option.isSome_iff_exists.mp hfind
    simp [UserModelUpdate, dbUpdateUser, hf0, hany2, DBError.errString]

/-- Witness for C4: inserting a user with Bob's email, and updating Alice
to Bob's email, both return `ErrDuplicateEmail` and leave the store as it
was. -/
theorem duplicate_email_rejected_witness :
    UserModelInsert (fun s => s) none stA ⟨1, 5, "Alice", "bob@x.y", "pw", true, 2⟩ =
      (Except.error UserErr.ErrDuplicateEmail, ⟨1, 5, "Alice", "bob@x.y", "pw", true, 2⟩, stA) ∧
    UserModelUpdate (fun s => s) none stA ⟨1, 5, "Alice", "bob@x.y", "pw", true, 2⟩ =
      (Except.error UserErr.ErrDuplicateEmail, ⟨1, 5, "Alice", "bob@x.y", "pw", true, 2⟩, stA) :=
  duplicate_email_rejected (fun s => s) stA ⟨1, 5, "Alice", "bob@x.y", "pw", true, 2⟩
    (by decide) (by decide) (by decide)

/-- C5: with the store reachable, `GetByEmail` returns `ErrRecordNotFound`
exactly when no stored row carries the requested email, and when a row
does (the first such row, as `QueryRow` reads), it is returned in full —
id, created_at, name, email, password hash, activated, version — with no
error. -/
theorem get_by_email_found_or_not (st : Store) (email : String) :
    (UserModelGetByEmail none st email = Except.error UserErr.ErrRecordNotFound ↔
      ∀ r ∈ st.rows, r.email ≠ email) ∧
    (∀ r, st.rows.find? (fun r => r.email == email) = some r →
      UserModelGetByEmail none st email = Except.ok (rowToUser r)) := by
  constructor
  · constructor
    · intro h r hr he
      cases hf : st.rows.find? (fun r => r.email == email) with
      | none =>
        rw [List.find?_eq_none] at hf
        exact hf r hr (by simp [he])
      | some r0 => simp [UserModelGetByEmail, dbGetByEmail, hf] at h
    · intro h
      have hf : st.rows.find? (fun r => r.email == email) = none := by
        rw [List.find?_eq_none]
        intro r hr
        simp [h r hr]
      simp [UserModelGetByEmail, dbGetByEmail, hf]
  · intro r hf
    simp [UserModelGetByEmail, dbGetByEmail, hf]

/-- Witness for C5: an unknown email yields `ErrRecordNotFound`; Bob's
email yields Bob's stored row with no error. -/
theorem get_by_email_found_or_not_witness :
    UserModelGetByEmail none stA "nobody@x.y" = Except.error UserErr.ErrRecordNotFound ∧
    UserModelGetByEmail none stA "bob@x.y" =
      Except.ok (rowToUser ⟨2, 6, "Bob", "bob@x.y", "H2", false, 1⟩) :=
  ⟨(get_by_email_found_or_not stA "nobody@x.y").1.mpr (by decide),
   (get_by_email_found_or_not stA "bob@x.y").2
     ⟨2, 6, "Bob", "bob@x.y", "H2", false, 1⟩ (by decide)⟩

/-- C2 counterexample: an insert during which the store fails with an
arbitrary server error (message `boom`) returns that error value raw to
the caller — outside the named taxonomy and the store-unavailable
outcome. -/
theorem raw_store_error_leaks :
    (UserModelInsert (fun s => s) (some (DBError.other "boom")) ⟨[], 1, 0⟩
        ⟨0, 0, "Nina", "nina@x.y", "password1", false, 0⟩).1 =
      Except.error (UserErr.raw (DBError.other "boom")) ∧
    namedTaxonomy (UserErr.raw (DBError.other "boom")) = false := by
  constructor
  · decide
  · rfl

/-- C2 (amended): every error returned by `Insert`, `GetByEmail` or
`Update` is either one of the sentinel errors the method translates to
(`ErrDuplicateEmail`; plus `ErrRecordNotFound` for `GetByEmail` and
`ErrEditConflict` for `Update`) or the persistence layer's error value
passed through unchanged by the `default:` branch. -/
theorem user_model_error_values
    (hash : String → String) (infra : Option DBError) (st : Store) (u : User)
    (email : String) :
    (∀ e, (UserModelInsert hash infra st u).1 = Except.error e →
        e = UserErr.ErrDuplicateEmail ∨ ∃ d, e = UserErr.raw d) ∧
    (∀ e, UserModelGetByEmail infra st email = Except.error e →
        e = UserErr.ErrRecordNotFound ∨ ∃ d, e = UserErr.raw d) ∧
    (∀ e, (UserModelUpdate hash infra st u).1 = Except.error e →
        e = UserErr.ErrDuplicateEmail ∨ e = UserErr.ErrEditConflict ∨
          ∃ d, e = UserErr.raw d) := by
  refine ⟨?_, ?_, ?_⟩
  · intro e he
    unfold UserModelInsert at he
    dsimp only at he
    cases hdb : dbInsertUser infra st u.Name u.Email (hash u.Password) u.Activated with
    | error d =>
      rw [hdb] at he
      dsimp only at he
      split_ifs at he <;> simp at he
      · exact Or.inl he.symm
      · exact Or.inr ⟨d, he.symm⟩
    | ok p =>
      rw [hdb] at he
      obtain ⟨i, c, v, st'⟩ := p
      simp at he
  · intro e he
    unfold UserModelGetByEmail at he
    cases hdb : dbGetByEmail infra st email with
    | error d =>
      rw [hdb] at he
      dsimp only at he
      split_ifs at he <;> simp at he
      · exact Or.inl he.symm
      · exact Or.inr ⟨d, he.symm⟩
    | ok r =>
      rw [hdb] at he
      simp at he
  · intro e he
    unfold UserModelUpdate at he
    dsimp only at he
    cases hdb : dbUpdateUser infra st u.Name u.Email (hash u.Password) u.Activated u.ID u.Version with
    | error d =>
      rw [hdb] at he
      dsimp only at he
      split_ifs at he <;> simp at he
      · exact Or.inl he.symm
      · exact Or.inr (Or.inl he.symm)
      · exact Or.inr (Or.inr ⟨d, he.symm⟩)
    | ok p =>
      rw [hdb] at he
      obtain ⟨v, st'⟩ := p
      simp at he

/-- Witness for C2 (amended): a timed-out insert returns the raw timeout
error, which is of the allowed shape. -/
theorem user_model_error_values_witness :
    UserErr.raw DBError.timeout = UserErr.ErrDuplicateEmail ∨
    ∃ d, UserErr.raw DBError.timeout = UserErr.raw d :=
  (user_model_error_values (fun s => s) (some DBError.timeout) ⟨[], 1, 0⟩
    ⟨0, 0, "Nina", "nina@x.y", "password1", false, 0⟩ "nina@x.y").1
    (UserErr.raw DBError.timeout) (by decide)

/-- The pgx pool's mutable configuration touched by `openDB`. -/
structure Pool where
  maxConns : Int
  maxConnIdleTime : Nat
deriving Repr, DecidableEq

/-- The `postgres` singleton wrapper around the pool. -/
structure Postgres where
  pool : Pool
deriving Repr, DecidableEq

/-- The package-level singleton state: whether `pgOnce` has fired and the
current `pgInstance`. -/
structure PGState where
  pgOnceDone : Bool
  pgInstance : Option Postgres
deriving Repr, DecidableEq

/-- `openDB` from `cmd/api/main.go`. The outcomes of the external calls
are inputs: `newRes` is `pgxpool.New`, `atoiRes` is
`strconv.Atoi(cfg.db.maxOpenConns)`, `parseDurRes` is
`time.ParseDuration(cfg.db.maxIdleTime)`, `pingErr` is `db.Ping`. Inside
`pgOnce.Do`, each failing step returns early (note the source's `:=`
shadowing of `err` for every step but `pgxpool.New`), `pgInstance` is set
only when the ping succeeds, and the function's final statement is
literally `return pgInstance, nil`. -/
def openDB (newRes : Except String Pool) (atoiRes : Except String Int)
    (parseDurRes : Except String Nat) (pingErr : Option String)
    (s : PGState) : PGState × Option Postgres × Option String :=
  if s.pgOnceDone then (s, s.pgInstance, none)
  else
    let s1 : PGState := { s with pgOnceDone := true }
    match newRes with
    | Except.error _ => (s1, s1.pgInstance, none)
    | Except.ok db =>
      match atoiRes with
      | Except.error _ => (s1, s1.pgInstance, none)
      | Except.ok i =>
        let db1 : Pool := { db with maxConns := i }
        match parseDurRes with
        | Except.error _ => (s1, s1.pgInstance, none)
        | Except.ok dur =>
          let db2 : Pool := { db1 with maxConnIdleTime := dur }
          match pingErr with
          | some _ => (s1, s1.pgInstance, none)
          | none =>
            let s2 : PGState := { s1 with pgInstance := some ⟨db2⟩ }
            (s2, s2.pgInstance, none)

/-- C8: `openDB` returns `nil` as its error for every configuration and
every outcome of pool construction, configuration parsing and the
connection ping; when any of those steps fails (and no instance was
already established), the failure is observable only as a `nil`
`*postgres` result. -/
theorem openDB_error_always_nil (newRes : Except String Pool)
    (atoiRes : Except String Int) (parseDurRes : Except String Nat)
    (pingErr : Option String) (s : PGState) :
    (openDB newRes atoiRes parseDurRes pingErr s).2.2 = none ∧
    (s.pgInstance = none →
      ((∃ m, newRes = Except.error m) ∨ (∃ m, atoiRes = Except.error m) ∨
        (∃ m, parseDurRes = Except.error m) ∨ (∃ m, pingErr = some m)) →
      (openDB newRes atoiRes parseDurRes pingErr s).2.1 = none) := by
  constructor
  · unfold openDB
    split
    · rfl
    · cases newRes <;> cases atoiRes <;> cases parseDurRes <;> cases pingErr <;> rfl
  · intro hnone hfail
    unfold openDB
    split
    · simpa using hnone
    · cases newRes <;> cases atoiRes <;> cases parseDurRes <;> cases pingErr <;>
        simp_all

/-- Witness for C8: a failed pool construction on a fresh singleton state
still yields a `nil` error, and the returned `*postgres` is `nil`. -/
theorem openDB_error_always_nil_witness :
    (openDB (Except.error "bad dsn") (Except.ok 25) (Except.ok 900) none
        ⟨false, none⟩).2.2 = none ∧
    (openDB (Except.error "bad dsn") (Except.ok 25) (Except.ok 900) none
        ⟨false, none⟩).2.1 = none :=
  ⟨(openDB_error_always_nil (Except.error "bad dsn") (Except.ok 25)
      (Except.ok 900) none ⟨false, none⟩).1,
   (openDB_error_always_nil (Except.error "bad dsn") (Except.ok 25)
      (Except.ok 900) none ⟨false, none⟩).2 rfl (Or.inl ⟨"bad dsn", rfl⟩)⟩

/-- Modelled from the spec: the `internal/validator` package is not among
the provided sources (only its caller in `internal/data/users.go` is). A
validator accumulates keyed error messages; `AddError` records a message
for a key not already present; `Check` records one exactly when its
condition is false. -/
structure Validator where
  Errors : List (String × String)
deriving Repr, DecidableEq

/-- Modelled from the spec: `Validator.AddError` (missing from the
provided sources) adds the message unless the key already has one. -/
def Validator.AddError (v : Validator) (key message : String) : Validator :=
  if v.Errors.any (fun p => p.1 == key) then v
  else { v with Errors := v.Errors ++ [(key, message)] }

/-- Modelled from the spec: `Validator.Check` (missing from the provided
sources) records the keyed message when the checked condition fails. -/
def Validator.Check (v : Validator) (cond : Bool) (key message : String) : Validator :=
  if cond then v else v.AddError key message

/-- Go `len` of a string: its byte count. -/
def goLen (s : String) : Nat := s.utf8ByteSize

/-- `ValidateEmail` from `internal/data/users.go`; the regular expression
`validator.EmailRX` (whose source is not provided) is the abstract
predicate `emailRX`. -/
def ValidateEmail (emailRX : String → Bool) (v : Validator) (email : String) : Validator :=
  (v.Check (email != "") "email" "must be provided").Check (emailRX email)
    "email" "must be a valid email address"

/-- `ValidatePasswordPlaintext` from `internal/data/users.go`. -/
def ValidatePasswordPlaintext (v : Validator) (password : String) : Validator :=
  ((v.Check (password != "") "password" "must be provided").Check
      (decide (8 ≤ goLen password)) "password"
      "must be at least 8 characters long").Check
    (decide (goLen password ≤ 72)) "password"
    "must not be more than 72 characters long"

/-- `ValidateUser` from `internal/data/users.go`: name checks, then
`ValidateEmail`, then `ValidatePasswordPlaintext`; the user value is only
read, never written. -/
def ValidateUser (emailRX : String → Bool) (v : Validator) (user : User) : Validator :=
  ValidatePasswordPlaintext
    (ValidateEmail emailRX
      ((v.Check (user.Name != "") "name" "must be provided").Check
        (decide (goLen user.Name ≤ 500)) "name"
        "must not be more than 500 characters long")
      user.Email)
    user.Password

/-- A `Check` leaves the error list empty exactly when it was empty before
and the checked condition holds. -/
theorem check_errors_nil (v : Validator) (c : Bool) (key message : String) :
    (v.Check c key message).Errors = [] ↔ v.Errors = [] ∧ c = true := by
  cases c with
  | true => simp [Validator.Check]
  | false =>
    simp only [Validator.Check, Bool.false_eq_true, if_false, Validator.AddError]
    split_ifs with h
    · constructor
      · intro he
        rw [he] at h
        simp at h
      · rintro ⟨-, hc⟩
        exact absurd hc (by simp)
    · simp

/-- C10: starting from a fresh validator, `ValidateUser` records no
validation error exactly when the name is non-empty and at most 500 bytes,
the email is non-empty and matches the email pattern, and the plaintext
password is between 8 and 72 bytes (Go `len` counts bytes; the code's own
messages say "characters"); the user value is only read by `ValidateUser`,
never modified. -/
theorem validate_user_no_errors (emailRX : String → Bool) (u : User) :
    (ValidateUser emailRX ⟨[]⟩ u).Errors = [] ↔
      (u.Name ≠ "" ∧ goLen u.Name ≤ 500 ∧ u.Email ≠ "" ∧ emailRX u.Email = true ∧
       8 ≤ goLen u.Password ∧ goLen u.Password ≤ 72) := by
  have h8 : 8 ≤ goLen u.Password → u.Password ≠ "" := by
    intro h he
    rw [he] at h
    exact absurd h (by decide)
  simp only [ValidateUser, ValidatePasswordPlaintext, ValidateEmail, check_errors_nil,
    bne_iff_ne, ne_eq, decide_eq_true_eq]
  constructor
  · intro h
    tauto
  · intro h
    simp only [and_true, true_and]
    tauto

/-- Witness for C10: a user with a short name, a pattern-matching email
and a 9-byte password validates with no recorded errors. -/
theorem validate_user_no_errors_witness :
    (ValidateUser (fun _ => true) ⟨[]⟩
        ⟨1, 0, "Ann", "ann@x.y", "password1", true, 1⟩).Errors = [] :=
  (validate_user_no_errors (fun _ => true)
      ⟨1, 0, "Ann", "ann@x.y", "password1", true, 1⟩).mpr (by decide)
